import Mathlib

/-!
Verification of the spreadsheet-to-MySQL product synchronization pipeline of
`app_sicar_productos.py` (class `App`, functions `upload_excel_to_db`,
`_clean_autocorrect` with its inner coercers `parse_num`, `parse_bool`,
`normalize_unit_name`, the helpers `_to_py_mysql`, `df_to_mysql_params`,
`norm_key`, and the tables `ALLOWED_MAP` / `UNIT_NORMALIZATION`).

Shallow-embedding conventions:
* Spreadsheet cells are a tagged variant (`Cell`): missing/NaN, finite number,
  positive/negative infinity, boolean, text.  A missing cell read by pandas is
  a float NaN, and `pd.isna` is true for it, so NaN and "absent" share the
  `Cell.na` constructor; `str()` of that value is the literal `"nan"`.
* Python floats are modelled as exact rationals (binary rounding is not
  modelled); `int` and `float` cells are both `Cell.num` (a MySQL numeric
  parameter either way).
* Python `str.strip` / `.lower()` / `.upper()` are modelled over `List Char`
  for the ASCII range plus the accented vowels that occur in the source's
  token tables (`'sí'`); other Unicode case pairs are out of scope.
* `re.search(r"-?\d+(?:\.\d+)?", s)` is modelled by an executable scanner
  (`reSearchNum`) returning the leftmost match together with the surrounding
  context, and is proved sound and leftmost for the token grammar `isNumTok`.
* The database is a list of `articulo` rows; `UPDATE ... SET c=COALESCE(%(x)s,c)
  WHERE k=%(key)s` executed through `cursor.executemany` inside one
  transaction is modelled statement-by-statement, with an explicit failure
  index: an error while executing the batch makes the surrounding
  `try/except` run `conn.rollback()`, which restores the state at transaction
  start (the connection is opened with `autocommit=False` and nothing was
  committed before).
-/

namespace Sicar

/-! ## Character and string primitives (Python `str` operations) -/

/-- Whitespace stripped by Python `str.strip()` (ASCII subset). -/
def isSpc (c : Char) : Bool :=
  c = ' ' ∨ c = '\t' ∨ c = '\n' ∨ c = '\r'

/-- Decimal digit (`\d` restricted to ASCII). -/
def isDig (c : Char) : Bool :=
  '0' ≤ c ∧ c ≤ '9'

/-- Lower/upper case pairs handled by the model of Python `.upper()` /
`.lower()`: ASCII letters plus the accented vowels appearing in the source's
token tables. -/
def casePairs : List (Char × Char) :=
  [('a', 'A'), ('b', 'B'), ('c', 'C'), ('d', 'D'), ('e', 'E'), ('f', 'F'),
   ('g', 'G'), ('h', 'H'), ('i', 'I'), ('j', 'J'), ('k', 'K'), ('l', 'L'),
   ('m', 'M'), ('n', 'N'), ('o', 'O'), ('p', 'P'), ('q', 'Q'), ('r', 'R'),
   ('s', 'S'), ('t', 'T'), ('u', 'U'), ('v', 'V'), ('w', 'W'), ('x', 'X'),
   ('y', 'Y'), ('z', 'Z'), ('á', 'Á'), ('é', 'É'), ('í', 'Í'), ('ó', 'Ó'),
   ('ú', 'Ú'), ('ñ', 'Ñ'), ('ü', 'Ü')]

/-- Model of Python `str.upper()` on one character. -/
def charUpper (c : Char) : Char :=
  ((casePairs.lookup c).getD c)

/-- Model of Python `str.lower()` on one character. -/
def charLower (c : Char) : Char :=
  (((casePairs.map Prod.swap).lookup c).getD c)

/-- Python `s.upper()`. -/
def pyUpper (s : List Char) : List Char := s.map charUpper

/-- Python `s.lower()`. -/
def pyLower (s : List Char) : List Char := s.map charLower

/-- Python `s.strip()`: drop leading and trailing whitespace. -/
def pyStrip (s : List Char) : List Char :=
  ((s.dropWhile isSpc).reverse.dropWhile isSpc).reverse

/-- Model of `re.sub(r"[ .]", "", s)` (`norm_key`) and of the chained
`replace('.','').replace(' ','')` calls: remove every dot and space. -/
def stripDotSpace (s : List Char) : List Char :=
  s.filter (fun c => ¬(c = '.' ∨ c = ' '))

/-- `s.replace(',', '.')` on one character. -/
def commaDot (c : Char) : Char := if c = ',' then '.' else c

/-- Numeric value of a digit string (most significant first). -/
def digitsVal (ds : List Char) : ℕ :=
  ds.foldl (fun acc c => 10 * acc + (c.toNat - 48)) 0

/-! ## Cell values -/

/-- A raw spreadsheet cell after `pd.read_excel`, or an intermediate cleaned
value (`_clean_autocorrect` writes coercion results back into the frame).
`na` is both a missing cell and a float NaN — pandas reads empty cells as NaN
and `pd.isna` holds for either. -/
inductive Cell
  | na
  | num (q : ℚ)
  | inf
  | ninf
  | b (v : Bool)
  | str (s : List Char)
  deriving DecidableEq, Repr

/-- A Python float that can come out of the numeric coercer: a finite value or
an infinity already present in the input (NaN never reaches this point: it is
caught by `pd.isna`). -/
inductive PyFloat
  | fin (q : ℚ)
  | inf
  | ninf
  deriving DecidableEq, Repr

/-- Decimal digits of a natural number. -/
def natRepr (n : ℕ) : List Char := (toString n).data

/-- Decimal expansion of a rational in `[0,1)`, at most `fuel` digits
(terminates exactly for the dyadic rationals that model Python floats). -/
def fracDigits : ℕ → ℚ → List Char
  | 0, _ => []
  | fuel + 1, r =>
      if r = 0 then []
      else
        let d : ℤ := ⌊r * 10⌋
        Char.ofNat (48 + d.toNat) :: fracDigits fuel (r * 10 - (d : ℚ))

/-- Decimal text of a number, modelling Python `str()` on a numeric cell.
The exact float `repr` (e.g. the trailing `.0` of `str(10.0)`) is not
reproduced for integers; no claim depends on the text of a numeric cell. -/
def numRepr (q : ℚ) : List Char :=
  let a := |q|
  (if q < 0 then ['-'] else []) ++ natRepr (⌊a⌋).toNat ++
    (if q.den = 1 then [] else '.' :: fracDigits 64 (a - (⌊a⌋ : ℚ)))

/-- Python `str(x)` on a cell (`astype(str)` uses the same text).
A NaN/missing cell prints as the literal `"nan"`. -/
def cellStr (x : Cell) : List Char :=
  match x with
  | .na => ['n', 'a', 'n']
  | .num q => numRepr q
  | .inf => ['i', 'n', 'f']
  | .ninf => ['-', 'i', 'n', 'f']
  | .b true => ['T', 'r', 'u', 'e']
  | .b false => ['F', 'a', 'l', 's', 'e']
  | .str s => s

/-! ## The numeric token scanner: `re.search(r"-?\d+(?:\.\d+)?", s)` -/

/-- Greedy match of `\d+(?:\.\d+)?` at the start of `l`: the matched token and
the remainder, or `none` when `l` does not start with a digit. -/
def matchCore (l : List Char) : Option (List Char × List Char) :=
  if (l.takeWhile isDig).isEmpty then none
  else
    match l.dropWhile isDig with
    | '.' :: r2 =>
        if (r2.takeWhile isDig).isEmpty then some (l.takeWhile isDig, l.dropWhile isDig)
        else some (l.takeWhile isDig ++ '.' :: r2.takeWhile isDig, r2.dropWhile isDig)
    | _ => some (l.takeWhile isDig, l.dropWhile isDig)

/-- Match of `-?\d+(?:\.\d+)?` anchored at the start of `l` (with the regex
backtracking over the optional sign: a lone `-` not followed by a digit cannot
start a match). -/
def matchHere (l : List Char) : Option (List Char × List Char) :=
  match l with
  | '-' :: t => (matchCore t).map (fun x => ('-' :: x.1, x.2))
  | _ => matchCore l

/-- `re.search` for the numeric token pattern: leftmost match, returned as
`(skipped prefix, match, rest)`. -/
def reSearchNum : List Char → Option (List Char × List Char × List Char)
  | [] => none
  | c :: t =>
      match matchHere (c :: t) with
      | some (m, r) => some ([], m, r)
      | none => (reSearchNum t).map (fun x => (c :: x.1, x.2.1, x.2.2))

/-- The unsigned part `\d+(\.\d+)?` of the token grammar, as a full-string
predicate. -/
def coreTok (l : List Char) : Bool :=
  (!(l.takeWhile isDig).isEmpty) &&
    (match l.dropWhile isDig with
     | [] => true
     | '.' :: r2 => (!(r2.takeWhile isDig).isEmpty) && (r2.dropWhile isDig).isEmpty
     | _ => false)

/-- The token grammar `-?\d+(\.\d+)?` as a full-string predicate. -/
def isNumTok (m : List Char) : Bool :=
  match m with
  | '-' :: t => coreTok t
  | t => coreTok t

/-- Value of a token produced by `reSearchNum` (what Python `float()` returns
on it, with exact rather than binary-rounded arithmetic). -/
def numTokVal (m : List Char) : ℚ :=
  let unsigned := fun (l : List Char) =>
    let ds := l.takeWhile isDig
    let r := l.dropWhile isDig
    match r with
    | '.' :: r2 =>
        let fs := r2.takeWhile isDig
        (digitsVal ds : ℚ) + (digitsVal fs : ℚ) / ((10 : ℚ) ^ fs.length)
    | _ => (digitsVal ds : ℚ)
  match m with
  | '-' :: t => -(unsigned t)
  | t => unsigned t

/-- Full-string Python `float()` literal parse used by `parse_bool`'s last
resort (`float(s.replace(',', '.'))`): optional sign, digits with an optional
fractional part; scientific notation, `inf`/`nan` literals and digit
underscores are not modelled (no claim exercises them). -/
def pyFloatParse (s : List Char) : Option ℚ :=
  let (neg, t) :=
    match s with
    | '-' :: r => (true, r)
    | '+' :: r => (false, r)
    | r => (false, r)
  let ds := t.takeWhile isDig
  let r := t.dropWhile isDig
  let val := fun (fs : List Char) =>
    let v := (digitsVal ds : ℚ) + (digitsVal fs : ℚ) / ((10 : ℚ) ^ fs.length)
    some (if neg then -v else v)
  match r with
  | [] => if ds.isEmpty then none else val []
  | '.' :: r2 =>
      if (r2.dropWhile isDig).isEmpty then
        if ds.isEmpty ∧ (r2.takeWhile isDig).isEmpty then none
        else val (r2.takeWhile isDig)
      else none
  | _ => none

/-! ## The registry and the unit synonym table -/

/-- Semantic type of a mapped column (`ALLOWED_MAP`'s second component). -/
inductive FieldTyp
  | tstr
  | tnum
  | tbool
  | tunit
  deriving DecidableEq, Repr

/-- `ALLOWED_MAP`: spreadsheet column → (database column, semantic type),
in source order (Python dicts iterate in insertion order). -/
def ALLOWED_MAP : List (List Char × (List Char × FieldTyp)) :=
  [("descripcion".data, ("descripcion".data, .tstr)),
   ("existencia".data, ("existencia".data, .tnum)),
   ("servicio".data, ("servicio".data, .tbool)),
   ("precio_compra".data, ("preciocompra".data, .tnum)),
   ("precio1".data, ("precio1".data, .tnum)),
   ("precio2".data, ("precio2".data, .tnum)),
   ("precio3".data, ("precio3".data, .tnum)),
   ("unidad_compra".data, ("unidadCompra".data, .tunit)),
   ("unidad_venta".data, ("unidadVenta".data, .tunit)),
   ("factor".data, ("factor".data, .tnum)),
   ("granel".data, ("granel".data, .tbool)),
   ("clave_alterna".data, ("clavealterna".data, .tstr))]

/-- `UNIT_NORMALIZATION`: canonical-key → canonical unit name. -/
def UNIT_NORMALIZATION : List (List Char × List Char) :=
  [("PZ".data, "PIEZA".data), ("PZA".data, "PIEZA".data),
   ("PZAS".data, "PIEZA".data), ("PIEZA".data, "PIEZA".data),
   ("PIEZAS".data, "PIEZA".data),
   ("KG".data, "KG".data), ("KILO".data, "KG".data),
   ("KILOGRAMO".data, "KG".data), ("KILOS".data, "KG".data),
   ("KGS".data, "KG".data),
   ("L".data, "L".data), ("LT".data, "L".data), ("LTS".data, "L".data),
   ("LITRO".data, "L".data), ("LITROS".data, "L".data),
   ("M".data, "M".data), ("MT".data, "M".data), ("MTS".data, "M".data),
   ("METRO".data, "M".data), ("METROS".data, "M".data),
   ("CJ".data, "CAJA".data), ("CAJA".data, "CAJA".data),
   ("CAJ".data, "CAJA".data),
   ("PAQ".data, "PAQUETE".data), ("PAQUETE".data, "PAQUETE".data)]

/-! ## The three value coercers (closures inside `_clean_autocorrect`)

Each returns `(value, counterIncrement)`: the Python closures mutate a shared
counter by `+= 1` or `+= 0` per call, which the caller folds into the report.
-/

/-- `parse_num`: the numeric coercer.  A string input is stripped, commas are
normalized to dots, and the first `-?\d+(?:\.\d+)?` token anywhere in the
string is parsed; the counter increments when the token differs from the whole
(normalized, stripped) string.  The source's `try: float(...) except: None`
never raises on a token matched by this pattern, so the `except` branch is not
modelled.  Python `bool` is a subclass of `int`, so a boolean cell takes the
`isinstance(x, (int, float))` branch. -/
def parse_num (x : Cell) : Option PyFloat × Bool :=
  match x with
  | .na => (none, false)
  | .b v => (some (.fin (if v then 1 else 0)), false)
  | .num q => (some (.fin q), false)
  | .inf => (some .inf, false)
  | .ninf => (some .ninf, false)
  | .str s =>
      let t := pyStrip s
      if t.isEmpty then (none, false)
      else
        let t2 := t.map commaDot
        match reSearchNum t2 with
        | some x => (some (.fin (numTokVal x.2.1)), decide (t2 ≠ x.2.1))
        | none => (none, false)

/-- The truthy token list of `parse_bool`. -/
def trueToks : List (List Char) :=
  ["1".data, "true".data, "t".data, "si".data, "sí".data, "y".data, "yes".data]

/-- The falsy token list of `parse_bool`. -/
def falseToks : List (List Char) :=
  ["0".data, "false".data, "f".data, "no".data, "n".data]

/-- `parse_bool`: the boolean coercer, returning MySQL `1`/`0`. -/
def parse_bool (x : Cell) : Option ℤ × Bool :=
  match x with
  | .na => (none, false)
  | .b v => (some (if v then 1 else 0), false)
  | .num q => (some (if q ≠ 0 then 1 else 0), decide (q ≠ 0 ∧ q ≠ 1))
  | .inf => (some 1, true)
  | .ninf => (some 1, true)
  | .str s =>
      let t := pyLower (pyStrip s)
      if t ∈ trueToks then
        (some 1, decide (t ∉ ["1".data, "true".data]))
      else if t ∈ falseToks then
        (some 0, decide (t ∉ ["0".data, "false".data]))
      else
        match pyFloatParse (t.map commaDot) with
        | some v => (some (if v ≠ 0 then 1 else 0), true)
        | none => (none, false)

/-- The `\d+(?:[\.,]\d+)?` full-string test of `normalize_unit_name`: a value
that is purely numeric is a data-entry error, not a unit name. -/
def numFull (s : List Char) : Bool :=
  let ds := s.takeWhile isDig
  match s.dropWhile isDig with
  | [] => !ds.isEmpty
  | c :: r2 =>
      (!ds.isEmpty) && (c = '.' ∨ c = ',') &&
        (!(r2.takeWhile isDig).isEmpty) && (r2.dropWhile isDig).isEmpty

/-- `normalize_unit_name`: the unit-name coercer. -/
def normalize_unit_name (x : Cell) : Option (List Char) × Bool :=
  match x with
  | .na => (none, false)
  | _ =>
      let s := pyStrip (cellStr x)
      if s.isEmpty then (none, false)
      else if numFull s then (none, true)
      else
        let key := stripDotSpace (pyUpper s)
        let canon := (UNIT_NORMALIZATION.lookup key).getD (pyUpper s)
        (some canon, decide (canon ≠ s))

/-- The text lambda of `_clean_autocorrect`:
`None if (pd.isna(v) or str(v).strip()=='') else str(v).strip()`. -/
def textClean (x : Cell) : Cell :=
  if x = .na ∨ (pyStrip (cellStr x)).isEmpty then .na
  else .str (pyStrip (cellStr x))

/-- Write a coercion result back into the frame as a cell (`None` becomes the
frame's missing value). -/
def cellOfPF : Option PyFloat → Cell
  | none => .na
  | some (.fin q) => .num q
  | some .inf => .inf
  | some .ninf => .ninf

/-- Write a unit-name coercion result back into the frame as a cell. -/
def cellOfUnit : Option (List Char) → Cell
  | none => .na
  | some s => .str s

/-- Apply the coercer of one semantic type to one cell, returning the new cell
value (`.apply(...)` writes it back into the column). -/
def coerceCell (typ : FieldTyp) (x : Cell) : Cell :=
  match typ with
  | .tnum => cellOfPF (parse_num x).1
  | .tbool =>
      match (parse_bool x).1 with
      | none => .na
      | some n => .num (n : ℚ)
  | .tunit => cellOfUnit (normalize_unit_name x).1
  | .tstr => textClean x

/-! ## Data frames

A frame is the header row plus positional data rows (pandas `DataFrame` after
`read_excel`): column access goes through the first occurrence of a name, as
pandas label lookup does.  Missing cells read as NaN (`Cell.na`).
-/

structure Frame where
  cols : List (List Char)
  rows : List (List Cell)
  deriving DecidableEq, Repr

/-- `df[c]` for one row: the cell under the first column named `c`. -/
def getCell (cols : List (List Char)) (r : List Cell) (c : List Char) : Cell :=
  match cols.indexOf? c with
  | some i => r.getD i .na
  | none => .na

/-- Positional column selection. -/
def selectIdxs (f : Frame) (idxs : List ℕ) : Frame :=
  ⟨idxs.map (fun i => f.cols.getD i []),
   f.rows.map (fun r => idxs.map (fun i => r.getD i .na))⟩

/-- `df[names]`: select columns by name, in the order given. -/
def selectByNames (f : Frame) (names : List (List Char)) : Frame :=
  selectIdxs f (names.filterMap f.cols.indexOf?)

/-- `df[c] = df[c].apply(g)` on one row: rewrite the cell under the first
column named `c`; a missing column leaves the row unchanged. -/
def mapCellAt (cols : List (List Char)) (c : List Char) (g : Cell → Cell)
    (r : List Cell) : List Cell :=
  match cols.indexOf? c with
  | none => r
  | some i => r.set i (g (r.getD i .na))

/-- `df[c] = df[c].apply(g)`: rewrite one column in place. -/
def mapColAt (f : Frame) (c : List Char) (g : Cell → Cell) : Frame :=
  { f with rows := f.rows.map (mapCellAt f.cols c g) }

/-! ## `_clean_autocorrect` -/

/-- The column subset retained by the registry:
`[c for c in df.columns if c in ('id','clave') or c in ALLOWED_MAP]`. -/
def keepCols (cols : List (List Char)) : List (List Char) :=
  cols.filter (fun c =>
    c = "id".data ∨ c = "clave".data ∨ (ALLOWED_MAP.lookup c).isSome)

/-- The echo-row mask for one row: some cell in a non-key column, as trimmed
lower-cased text, equals that column's own (already lower-cased) name. -/
def isEchoRow (cols : List (List Char)) (key : List Char) (r : List Cell) : Bool :=
  (cols.filter (fun c => c ≠ key)).any
    (fun c => pyLower (pyStrip (cellStr (getCell cols r c))) == c)

/-- The `SyncReport` counters assembled by `_clean_autocorrect`. -/
structure Report where
  dropped_rows : ℕ
  num_coerced : ℕ
  bool_coerced : ℕ
  unit_normalized : ℕ
  deriving DecidableEq, Repr

/-- Sum of a per-cell counter increment over one column. -/
def colFlagsSum (f : Frame) (c : List Char) (flag : Cell → Bool) : ℕ :=
  match f.cols.indexOf? c with
  | some i => (f.rows.map (fun r => if flag (r.getD i .na) then 1 else 0)).sum
  | none => 0

/-- Sum of a per-cell counter increment over every registry column of one
semantic type (the per-column `.apply` calls mutate a shared counter; only the
total is observable in the report). -/
def typFlagsSum (f : Frame) (typ : FieldTyp) (flag : Cell → Bool) : ℕ :=
  ((ALLOWED_MAP.filter (fun e => e.2.2 = typ)).map
    (fun e => colFlagsSum f e.1 flag)).sum

/-- `_clean_autocorrect(df, key_col)`: keep registry columns, stringify and
trim the key, drop blank-key rows, drop and count echo rows, then coerce every
registry column and collect the counters. -/
def cleanAutocorrect (df : Frame) (key : List Char) : Frame × Report :=
  let f1 := selectByNames df (keepCols df.cols)
  let f2 := mapColAt f1 key (fun x => .str (pyStrip (cellStr x)))
  let f3 : Frame :=
    { f2 with rows := f2.rows.filter (fun r => getCell f2.cols r key ≠ .str []) }
  let dropped := (f3.rows.filter (isEchoRow f3.cols key)).length
  let f4 : Frame :=
    { f3 with rows := f3.rows.filter (fun r => !isEchoRow f3.cols key r) }
  let f5 := ALLOWED_MAP.foldl (fun g e => mapColAt g e.1 (coerceCell e.2.2)) f4
  (f5,
   { dropped_rows := dropped
     num_coerced := typFlagsSum f4 .tnum (fun x => (parse_num x).2)
     bool_coerced := typFlagsSum f4 .tbool (fun x => (parse_bool x).2)
     unit_normalized := typFlagsSum f4 .tunit (fun x => (normalize_unit_name x).2) })

/-! ## MySQL side -/

/-- A non-NULL MySQL parameter or column value. -/
inductive SqlVal
  | n (q : ℚ)
  | s (t : List Char)
  deriving DecidableEq, Repr

/-- `_to_py_mysql` composed with the `obj.where(pd.notnull(obj), None)` step
of `df_to_mysql_params`: NaN/None → NULL, bool → 0/1, NaN/∞ floats → NULL,
blank strings → NULL, otherwise the value itself. -/
def toPyMysql (x : Cell) : Option SqlVal :=
  match x with
  | .na => none
  | .b v => some (.n (if v then 1 else 0))
  | .num q => some (.n q)
  | .inf => none
  | .ninf => none
  | .str s => if (pyStrip s).isEmpty then none else some (.s (pyStrip s))

/-- One bound parameter set of the bulk statement (`%(name)s` dictionary). -/
abbrev ParamRow := List (List Char × Option SqlVal)

/-- `df_to_mysql_params`: one parameter dictionary per cleaned row. -/
def dfToParams (f : Frame) : List ParamRow :=
  f.rows.map (fun r => f.cols.zip r |>.map (fun p => (p.1, toPyMysql p.2)))

/-- Value bound to `%(c)s` in one parameter row. -/
def paramGet (p : ParamRow) (c : List Char) : Option SqlVal :=
  (p.lookup c).getD none

/-- One row of the `articulo` table: the two key columns plus the updatable
columns as a (column name, nullable value) list. -/
structure Articulo where
  art_id : ℤ
  clave : List Char
  fields : List (List Char × Option SqlVal)
  deriving DecidableEq, Repr

/-- MySQL implicit string-to-number conversion used when a string parameter is
compared against the numeric `art_id` column: value of the longest numeric
prefix, `0` when there is none (exponent suffixes are not modelled). -/
def mysqlNumOfStr (s : List Char) : ℚ :=
  let t := s.dropWhile isSpc
  let t1 := match t with
    | '-' :: r => r
    | '+' :: r => r
    | r => r
  let neg := match t with
    | '-' :: _ => true
    | _ => false
  let ds := t1.takeWhile isDig
  let fs := match t1.dropWhile isDig with
    | '.' :: r2 => r2.takeWhile isDig
    | _ => []
  let v : ℚ := (digitsVal ds : ℚ) + (digitsVal fs : ℚ) / ((10 : ℚ) ^ fs.length)
  if neg then -v else v

/-- Numeric value of an SQL scalar under numeric comparison. -/
def sqlNumVal : SqlVal → ℚ
  | .n q => q
  | .s t => mysqlNumOfStr t

/-- Case-insensitive string equality (the default `_ci` collation of the
`clave` column, modelled over the case pairs in scope). -/
def ciEq (a b : List Char) : Bool := pyLower a == pyLower b

/-- `WHERE where_col = %(key)s` on one `articulo` row.  A NULL parameter
matches nothing; a string compared against `art_id` goes through MySQL's
numeric coercion. -/
def whereMatch (wc : List Char) (kv : Option SqlVal) (a : Articulo) : Bool :=
  match kv with
  | none => false
  | some v =>
      if wc = "art_id".data then decide (sqlNumVal v = (a.art_id : ℚ))
      else
        match v with
        | .s t => ciEq t a.clave
        | .n q => decide (q = mysqlNumOfStr a.clave)

/-- Apply the `SET dbcol = COALESCE(%(c)s, dbcol), ...` list to one matching
row: a NULL parameter keeps the current column value.  `updates` pairs each
database column with its parameter name. -/
def applyRow (updates : List (List Char × List Char)) (p : ParamRow)
    (a : Articulo) : Articulo :=
  { a with
    fields := a.fields.map (fun kv =>
      (kv.1,
       match updates.find? (fun u => u.1 == kv.1) with
       | some u =>
           (match paramGet p u.2 with
            | some v => some v
            | none => kv.2)
       | none => kv.2)) }

/-- One execution of the parameterized UPDATE (one element of the
`executemany` batch). -/
def execStmt (updates : List (List Char × List Char)) (wc key : List Char)
    (p : ParamRow) (tbl : List Articulo) : List Articulo :=
  tbl.map (fun a => if whereMatch wc (paramGet p key) a then applyRow updates p a else a)

/-- `cursor.executemany(sql_upd, rows)`: the statement executed once per
parameter row, in order. -/
def execAll (updates : List (List Char × List Char)) (wc key : List Char)
    (params : List ParamRow) (tbl : List Articulo) : List Articulo :=
  params.foldl (fun t p => execStmt updates wc key p t) tbl

/-! ## `upload_excel_to_db` -/

/-- SQL statements issued during one upload. -/
inductive Stmt
  | selectLookups
  | bulkUpdate
  deriving DecidableEq, Repr

/-- Terminal outcome of one upload attempt. -/
inductive Outcome
  | emptyInput
  | noKey
  | noEditable
  | writeError
  | committed (rowsUsed : ℕ) (report : Report)
  deriving DecidableEq, Repr

/-- State of the MySQL database touched by an upload. -/
structure DbState where
  articulo : List Articulo
  unidad : List (ℤ × List Char)
  deriving DecidableEq, Repr

/-- Observable result of one upload: the database afterwards, the statements
issued, and the outcome reported to the caller. -/
structure UploadResult where
  db : DbState
  trace : List Stmt
  outcome : Outcome
  deriving DecidableEq, Repr

/-- Header normalization of `upload_excel_to_db`:
`df.columns = [str(c).strip().lower() for c in df.columns]` followed by
`df.loc[:, ~df.columns.duplicated()]` (keep the first occurrence). -/
def normalizeHeader (f : Frame) : Frame :=
  let f1 : Frame := ⟨f.cols.map (fun c => pyLower (pyStrip c)), f.rows⟩
  selectIdxs f1 ((List.range f1.cols.length).filter
    (fun i => f1.cols.indexOf? (f1.cols.getD i []) = some i))

/-- Key selection: `'id' if 'id' in df.columns else ('clave' if ...)`. -/
def selectKey (cols : List (List Char)) : Option (List Char) :=
  if "id".data ∈ cols then some "id".data
  else if "clave".data ∈ cols then some "clave".data
  else none

/-- The dictionary `unit_key_to_id` built from the `SQL_LOOKUPS` result:
`UPPER(REPLACE(REPLACE(u.nombre,'.',''),' ',''))` keys a unit id; empty keys
are falsy and skipped; `key_abrev` is `NULL` and never added; later rows
overwrite earlier ones (the most recent binding is the first hit here). -/
def buildUnitMap (rows : List (ℤ × List Char)) : List (List Char × ℤ) :=
  rows.foldl (fun m u =>
    let k := pyUpper (stripDotSpace u.2)
    if k.isEmpty then m else (k, u.1) :: m) []

/-- The `to_unit_id` closure: blank/missing → NULL, otherwise synonym-fold the
upper-cased trimmed text and look the canonical key up in the unit map;
unresolved names become NULL. -/
def to_unit_id (m : List (List Char × ℤ)) (x : Cell) : Cell :=
  if x = .na ∨ (pyStrip (cellStr x)).isEmpty then .na
  else
    let s := pyUpper (pyStrip (cellStr x))
    let s1 := (UNIT_NORMALIZATION.lookup s).getD s
    match m.lookup (stripDotSpace s1) with
    | some uid => .num (uid : ℚ)
    | none => .na

/-- Replace the two unit-name columns by resolved unit identifiers. -/
def resolveUnits (f : Frame) (m : List (List Char × ℤ)) : Frame :=
  ["unidad_compra".data, "unidad_venta".data].foldl
    (fun g c => mapColAt g c (to_unit_id m)) f

/-- `update_cols`: cleaned columns that are in the registry. -/
def updateColsOf (f : Frame) : List (List Char) :=
  f.cols.filter (fun c => (ALLOWED_MAP.lookup c).isSome)

/-- `where_col`: `art_id` for the numeric identifier key, `clave` otherwise. -/
def whereColOf (key : List Char) : List Char :=
  if key = "id".data then "art_id".data else "clave".data

/-- The `(database column, parameter name)` pairs of the SET clause, in
`update_cols` order. -/
def updatePairs (updateCols : List (List Char)) : List (List Char × List Char) :=
  updateCols.filterMap (fun c => (ALLOWED_MAP.lookup c).map (fun v => (v.1, c)))

/-- `df_to_mysql_params(clean_df[present])` with `present = update_cols + [key]`. -/
def paramsOf (f : Frame) (key : List Char) : List ParamRow :=
  dfToParams (selectByNames f (updateColsOf f ++ [key]))

/-- Database state after the committed bulk write. -/
def writeDb (f : Frame) (key : List Char) (db : DbState) : DbState :=
  { db with
    articulo := execAll (updatePairs (updateColsOf f)) (whereColOf key) key
      (paramsOf f key) db.articulo }

/-- The pipeline up to (and including) unit-id resolution: `none` when the
upload aborts on empty input or a missing identifier column, otherwise the
key, the resolved cleaned frame, and the report. -/
def uploadPrep (df0 : Frame) (db : DbState) : Option (List Char × Frame × Report) :=
  if df0.rows.isEmpty ∨ df0.cols.isEmpty then none
  else
    let df1 := normalizeHeader df0
    (selectKey df1.cols).map (fun key =>
      let cr := cleanAutocorrect df1 key
      (key, resolveUnits cr.1 (buildUnitMap db.unidad), cr.2))

/-- Whether the injected failure point hits one of the `n` executions of the
bulk statement (`failAt = none` models an error-free run, and an index beyond
the batch never fires). -/
def failsWithin (failAt : Option ℕ) (n : ℕ) : Bool :=
  match failAt with
  | some k => decide (k < n)
  | none => false

/-- `upload_excel_to_db` from the parsed spreadsheet on: clean, read the unit
catalogue (SQL #1), resolve units, then issue the bulk UPDATE (SQL #2) inside
one transaction.  `failAt` injects a database error while the batch statement
is executing one of its parameter rows; the `except` handler then runs
`conn.rollback()`, which — the connection being `autocommit=False` with
nothing committed — restores the state at transaction start. -/
def runUpload (df0 : Frame) (db : DbState) (failAt : Option ℕ) : UploadResult :=
  match uploadPrep df0 db with
  | none =>
      if df0.rows.isEmpty ∨ df0.cols.isEmpty then ⟨db, [], .emptyInput⟩
      else ⟨db, [], .noKey⟩
  | some (key, clean2, rep) =>
      if (updateColsOf clean2).isEmpty then ⟨db, [.selectLookups], .noEditable⟩
      else if failsWithin failAt (paramsOf clean2 key).length then
        ⟨db, [.selectLookups, .bulkUpdate], .writeError⟩
      else
        ⟨writeDb clean2 key db, [.selectLookups, .bulkUpdate],
         .committed (paramsOf clean2 key).length rep⟩

/-! ## Row-level views of the cleaning pipeline

These name the per-row images of the frame transformations inside
`_clean_autocorrect`; `cleanAutocorrect_spec` proves that the pipeline equals
these views composed, which the row-level claims are stated against.
-/

/-- Indices of the registry-retained columns (`df[keep]`). -/
def keepIdxs (cols : List (List Char)) : List ℕ :=
  (keepCols cols).filterMap (fun c => cols.indexOf? c)

/-- Header after the keep-selection. -/
def keptCols (cols : List (List Char)) : List (List Char) :=
  (keepIdxs cols).map (fun i => cols.getD i [])

/-- One row after the keep-selection. -/
def keptRow (cols : List (List Char)) (r : List Cell) : List Cell :=
  (keepIdxs cols).map (fun i => r.getD i .na)

/-- One row after the key column is stringified and trimmed
(`df[key_col].astype(str).str.strip()`). -/
def keyConvRow (kcols : List (List Char)) (key : List Char) (r : List Cell) :
    List Cell :=
  mapCellAt kcols key (fun x => .str (pyStrip (cellStr x))) r

/-- One row after every registry column is coerced. -/
def coerceRow (kcols : List (List Char)) (r : List Cell) : List Cell :=
  ALLOWED_MAP.foldl (fun r e => mapCellAt kcols e.1 (coerceCell e.2.2) r) r

/-- The rows that survive the blank-key filter, before the echo-row mask. -/
def keyFilteredRows (df : Frame) (key : List Char) : List (List Cell) :=
  ((df.rows.map (keptRow df.cols)).map (keyConvRow (keptCols df.cols) key)).filter
    (fun r => decide (getCell (keptCols df.cols) r key ≠ .str []))

/-- Evolution of a single `articulo` row across the whole `executemany`
batch: each parameter row whose WHERE clause matches applies its SET list. -/
def rowExec (updates : List (List Char × List Char)) (wc key : List Char)
    (params : List ParamRow) (a : Articulo) : Articulo :=
  params.foldl
    (fun a p => if whereMatch wc (paramGet p key) a then applyRow updates p a else a) a

/-! ## Concrete inputs used by witnesses and counterexamples -/

/-- A database with one product whose stock (`existencia`) is 7. -/
def c2Db : DbState :=
  ⟨[⟨1, "A".data, [("existencia".data, some (.n 7))]⟩], []⟩

/-- A one-row spreadsheet with a key and one editable text column. -/
def wFrame1 : Frame :=
  ⟨["id".data, "descripcion".data], [[.str "1".data, .str "x".data]]⟩

/-- A database with a single product row. -/
def wDb : DbState :=
  ⟨[⟨1, "A".data,
     [("descripcion".data, some (.s "old".data)),
      ("existencia".data, some (.n 7))]⟩],
   []⟩

/-- A spreadsheet whose two rows address the same product, the first with a
blank (null-coercing) stock cell, the second with stock 5. -/
def dupKeyFrame : Frame :=
  ⟨["id".data, "existencia".data],
   [[.num 1, .na], [.num 1, .num 5]]⟩

/-- The cleaned frame that `dupKeyFrame` produces. -/
def c2Clean : Frame :=
  ⟨["id".data, "existencia".data],
   [[.str "1".data, .na], [.str "1".data, .num 5]]⟩

/-- A spreadsheet containing only the key column. -/
def keyOnlyFrame : Frame :=
  ⟨["id".data], [[.str "1".data]]⟩

/-- A row whose key is blank and whose `descripcion` cell echoes its own
column name. -/
def blankKeyEchoFrame : Frame :=
  ⟨["id".data, "descripcion".data],
   [[.str "  ".data, .str "descripcion".data]]⟩

/-- A row whose `descripcion` cell equals the name of a *different* column. -/
def crossEchoFrame : Frame :=
  ⟨["id".data, "descripcion".data, "existencia".data],
   [[.str "1".data, .str "existencia".data, .str "2".data]]⟩

/-- A row whose cell under the unrecognized column `foo` echoes that column's
own name, while every registry column differs from its name. -/
def unmappedEchoFrame : Frame :=
  ⟨["id".data, "foo".data, "descripcion".data],
   [[.str "1".data, .str "foo".data, .str "x".data]]⟩

/-- A row whose key cell is missing (NaN). -/
def nanKeyFrame : Frame :=
  ⟨["id".data, "descripcion".data], [[.na, .str "x".data]]⟩

end Sicar

namespace Sicar

/-! # Claim theorems -/

/-- Token lists of `parse_bool` are disjoint. -/
theorem falseToks_not_true : ∀ t ∈ falseToks, t ∉ trueToks := by decide

/-- C5 — For every text input, the case-insensitive tokens
`{1,true,t,si,sí,y,yes}` map to true and `{0,false,f,no,n}` map to false, the
correction counter increments exactly when the lowered token is not the
canonical `1`/`0`/`true`/`false` form; in particular `"sí"`, `"SI"`, `"Yes"`
yield true with correction flagged, while the literals `"1"` and `"true"`
yield true without correction. -/
theorem bool_token_map :
    (∀ s : List Char,
      (pyLower (pyStrip s) ∈ trueToks →
        parse_bool (.str s) =
          (some 1, decide (pyLower (pyStrip s) ∉ ["1".data, "true".data]))) ∧
      (pyLower (pyStrip s) ∈ falseToks →
        parse_bool (.str s) =
          (some 0, decide (pyLower (pyStrip s) ∉ ["0".data, "false".data])))) ∧
    parse_bool (.str "sí".data) = (some 1, true) ∧
    parse_bool (.str "SI".data) = (some 1, true) ∧
    parse_bool (.str "Yes".data) = (some 1, true) ∧
    parse_bool (.str "1".data) = (some 1, false) ∧
    parse_bool (.str "true".data) = (some 1, false) := by
  refine ⟨fun s => ⟨fun h => ?_, fun h => ?_⟩, by decide, by decide, by decide,
    by decide, by decide⟩
  · show (if pyLower (pyStrip s) ∈ trueToks then _ else _) = _
    rw [if_pos h]
  · have hn : pyLower (pyStrip s) ∉ trueToks := falseToks_not_true _ h
    show (if pyLower (pyStrip s) ∈ trueToks then _ else _) = _
    rw [if_neg hn, if_pos h]

/-- C5 witness — the theorem instantiated at the input `" Y "`. -/
theorem bool_token_map_w :
    parse_bool (.str " Y ".data) =
      (some 1, decide (pyLower (pyStrip " Y ".data) ∉ ["1".data, "true".data])) :=
  (bool_token_map.1 " Y ".data).1 (by decide)

/-- C8 — An input to the numeric coercer that is already a machine number is
accepted directly (its exact value flows into the SQL parameter), except that
NaN and the two infinities coerce to the NULL parameter.  The NULL conversion
for the infinities happens in `_to_py_mysql` (`math.isnan`/`math.isinf`),
after `parse_num` passed them through; NaN is caught by `pd.isna` inside
`parse_num` itself. -/
theorem num_machine_accept :
    (∀ q : ℚ,
      parse_num (.num q) = (some (.fin q), false) ∧
      toPyMysql (coerceCell .tnum (.num q)) = some (.n q)) ∧
    parse_num .na = (none, false) ∧
    toPyMysql (coerceCell .tnum .na) = none ∧
    parse_num .inf = (some .inf, false) ∧
    toPyMysql (coerceCell .tnum .inf) = none ∧
    parse_num .ninf = (some .ninf, false) ∧
    toPyMysql (coerceCell .tnum .ninf) = none :=
  ⟨fun _ => ⟨rfl, rfl⟩, rfl, rfl, rfl, rfl, rfl, rfl⟩

end Sicar

namespace Sicar

theorem take_all_dig : ∀ {ds : List Char}, (∀ c ∈ ds, isDig c = true) →
    ds.takeWhile isDig = ds := by
  intro ds h
  induction ds with
  | nil => rfl
  | cons c t ih =>
      rw [List.takeWhile_cons_of_pos (h c (List.mem_cons_self c t)),
        ih (fun x hx => h x (List.mem_cons_of_mem c hx))]

theorem drop_all_dig : ∀ {ds : List Char}, (∀ c ∈ ds, isDig c = true) →
    ds.dropWhile isDig = [] := by
  intro ds h
  induction ds with
  | nil => rfl
  | cons c t ih =>
      rw [List.dropWhile_cons_of_pos (h c (List.mem_cons_self c t)),
        ih (fun x hx => h x (List.mem_cons_of_mem c hx))]

theorem take_dig_append {ds r : List Char} {c : Char}
    (h : ∀ x ∈ ds, isDig x = true) (hc : isDig c = false) :
    (ds ++ c :: r).takeWhile isDig = ds := by
  induction ds with
  | nil => rw [List.nil_append, List.takeWhile_cons_of_neg (by simp [hc])]
  | cons d t ih =>
      rw [List.cons_append, List.takeWhile_cons_of_pos (h d (List.mem_cons_self d t)),
        ih (fun x hx => h x (List.mem_cons_of_mem d hx))]

theorem drop_dig_append {ds r : List Char} {c : Char}
    (h : ∀ x ∈ ds, isDig x = true) (hc : isDig c = false) :
    (ds ++ c :: r).dropWhile isDig = c :: r := by
  induction ds with
  | nil => rw [List.nil_append, List.dropWhile_cons_of_neg (by simp [hc])]
  | cons d t ih =>
      rw [List.cons_append, List.dropWhile_cons_of_pos (h d (List.mem_cons_self d t)),
        ih (fun x hx => h x (List.mem_cons_of_mem d hx))]

theorem coreTok_digits {ds : List Char} (hne : ds ≠ [])
    (h : ∀ c ∈ ds, isDig c = true) : coreTok ds = true := by
  unfold coreTok
  rw [take_all_dig h, drop_all_dig h]
  simp [hne]

theorem coreTok_frac {ds fs : List Char} (hdne : ds ≠ [])
    (hd : ∀ c ∈ ds, isDig c = true) (hfne : fs ≠ [])
    (hf : ∀ c ∈ fs, isDig c = true) :
    coreTok (ds ++ '.' :: fs) = true := by
  unfold coreTok
  rw [take_dig_append hd (by decide), drop_dig_append hd (by decide)]
  simp [hdne, take_all_dig hf, drop_all_dig hf, hfne]

theorem coreTok_head : ∀ {m : List Char}, coreTok m = true →
    ∃ d t, m = d :: t ∧ isDig d = true := by
  intro m h
  cases m with
  | nil => exact absurd h (by decide)
  | cons c t =>
      refine ⟨c, t, rfl, ?_⟩
      by_contra hc
      rw [coreTok, List.takeWhile_cons_of_neg (by simpa using hc)] at h
      simp at h

theorem isNumTok_neg (t : List Char) : isNumTok ('-' :: t) = coreTok t := rfl

theorem isNumTok_cons_ne {c : Char} {t : List Char} (hc : c ≠ '-') :
    isNumTok (c :: t) = coreTok (c :: t) := by
  unfold isNumTok
  split
  · rename_i t' heq
    cases heq
    exact absurd rfl hc
  · rfl

theorem matchCore_sound {l : List Char} {x : List Char × List Char}
    (h : matchCore l = some x) :
    l = x.1 ++ x.2 ∧ coreTok x.1 = true ∧ ∃ d t, x.1 = d :: t ∧ isDig d = true := by
  have hall : ∀ c ∈ l.takeWhile isDig, isDig c = true :=
    fun c hc => List.mem_takeWhile_imp hc
  unfold matchCore at h
  split at h
  · exact absurd h (by simp)
  · rename_i hne
    have hne' : l.takeWhile isDig ≠ [] := by
      simpa [List.isEmpty_iff] using hne
    split at h
    · rename_i r2 heq
      split at h
      · rename_i hfs
        cases h
        refine ⟨(List.takeWhile_append_dropWhile isDig l).symm,
          coreTok_digits hne' hall, coreTok_head (coreTok_digits hne' hall)⟩
      · rename_i hfs
        cases h
        have hfall : ∀ c ∈ r2.takeWhile isDig, isDig c = true :=
          fun c hc => List.mem_takeWhile_imp hc
        have hfne : r2.takeWhile isDig ≠ [] := by
          simpa [List.isEmpty_iff] using hfs
        constructor
        · have h1 : l = l.takeWhile isDig ++ '.' :: r2 :=
            heq ▸ (List.takeWhile_append_dropWhile isDig l).symm
          have h2 : r2 = r2.takeWhile isDig ++ r2.dropWhile isDig :=
            (List.takeWhile_append_dropWhile isDig r2).symm
          calc l = l.takeWhile isDig ++ '.' :: r2 := h1
            _ = l.takeWhile isDig ++ '.' :: (r2.takeWhile isDig ++ r2.dropWhile isDig) := by
                rw [← h2]
            _ = (l.takeWhile isDig ++ '.' :: r2.takeWhile isDig) ++ r2.dropWhile isDig := by
                simp
        · refine ⟨coreTok_frac hne' hall hfne hfall, ?_⟩
          obtain ⟨d, t, hdt, hd⟩ := coreTok_head (coreTok_digits hne' hall)
          exact ⟨d, t ++ '.' :: r2.takeWhile isDig, by rw [hdt]; simp, hd⟩
    · cases h
      exact ⟨(List.takeWhile_append_dropWhile isDig l).symm,
        coreTok_digits hne' hall, coreTok_head (coreTok_digits hne' hall)⟩

theorem matchHere_sound {l : List Char} {x : List Char × List Char}
    (h : matchHere l = some x) : l = x.1 ++ x.2 ∧ isNumTok x.1 = true := by
  unfold matchHere at h
  split at h
  · rename_i t
    cases hmc : matchCore t with
    | none => rw [hmc] at h; exact absurd h (by simp)
    | some y =>
        rw [hmc] at h
        simp only [Option.map_some'] at h
        obtain ⟨happ, hcore, _⟩ := matchCore_sound hmc
        cases h
        exact ⟨by simp [happ], by rw [isNumTok_neg]; exact hcore⟩
  · obtain ⟨happ, hcore, d, t, hdt, hd⟩ := matchCore_sound h
    refine ⟨happ, ?_⟩
    rw [hdt]
    rw [hdt] at hcore
    rw [isNumTok_cons_ne (by rintro rfl; exact absurd hd (by decide))]
    exact hcore

theorem matchCore_append {m : List Char} (r : List Char) (h : coreTok m = true) :
    matchCore (m ++ r) ≠ none := by
  obtain ⟨d, t, rfl, hd⟩ := coreTok_head h
  intro hnone
  unfold matchCore at hnone
  rw [List.cons_append, List.takeWhile_cons_of_pos hd] at hnone
  split at hnone
  · rename_i he
    simp at he
  · split at hnone
    · split at hnone <;> simp at hnone
    · simp at hnone

theorem numTok_matchHere {m : List Char} (r : List Char) (h : isNumTok m = true) :
    matchHere (m ++ r) ≠ none := by
  cases m with
  | nil => exact absurd h (by decide)
  | cons c t =>
      by_cases hc : c = '-'
      · subst hc
        rw [isNumTok_neg] at h
        intro hnone
        rw [List.cons_append] at hnone
        unfold matchHere at hnone
        split at hnone
        · rename_i t' heq
          cases heq
          cases hmc : matchCore (t ++ r) with
          | none => exact matchCore_append r h hmc
          | some y => rw [hmc] at hnone; simp at hnone
        · rename_i hno
          exact (hno (t ++ r) rfl).elim
      · rw [isNumTok_cons_ne hc] at h
        intro hnone
        rw [List.cons_append] at hnone
        unfold matchHere at hnone
        have : matchCore (c :: (t ++ r)) = none := by
          revert hnone
          split
          · rename_i t' heq
            cases heq
            exact absurd rfl hc
          · exact id
        rw [← List.cons_append] at this
        exact matchCore_append r h this

end Sicar

namespace Sicar

theorem reSearchNum_sound : ∀ {l : List Char} {x : List Char × List Char × List Char},
    reSearchNum l = some x → l = x.1 ++ x.2.1 ++ x.2.2 ∧ isNumTok x.2.1 = true := by
  intro l
  induction l with
  | nil => intro x h; exact absurd h (by simp [reSearchNum])
  | cons c t ih =>
      intro x h
      unfold reSearchNum at h
      cases hmh : matchHere (c :: t) with
      | some y =>
          rw [hmh] at h
          cases h
          obtain ⟨happ, htok⟩ := matchHere_sound hmh
          exact ⟨by simpa using happ, htok⟩
      | none =>
          rw [hmh] at h
          cases hrs : reSearchNum t with
          | none => rw [hrs] at h; exact absurd h (by simp)
          | some y =>
              rw [hrs] at h
              simp only [Option.map_some'] at h
              cases h
              obtain ⟨happ, htok⟩ := ih hrs
              exact ⟨by simpa using happ, htok⟩

theorem reSearchNum_first : ∀ {l : List Char} {x : List Char × List Char × List Char},
    reSearchNum l = some x →
    ∀ p' m' r', l = p' ++ m' ++ r' → isNumTok m' = true →
      x.1.length ≤ p'.length := by
  intro l
  induction l with
  | nil => intro x h; exact absurd h (by simp [reSearchNum])
  | cons c t ih =>
      intro x h p' m' r' hsplit htok
      unfold reSearchNum at h
      cases hmh : matchHere (c :: t) with
      | some y =>
          rw [hmh] at h
          cases h
          simp
      | none =>
          rw [hmh] at h
          cases hrs : reSearchNum t with
          | none => rw [hrs] at h; exact absurd h (by simp)
          | some y =>
              rw [hrs] at h
              simp only [Option.map_some'] at h
              cases h
              cases p' with
              | nil =>
                  exfalso
                  apply numTok_matchHere r' htok
                  rw [List.nil_append] at hsplit
                  rw [hsplit] at hmh
                  exact hmh
              | cons c' p'' =>
                  rw [List.cons_append] at hsplit
                  injection hsplit with h1 h2
                  simpa using Nat.succ_le_succ (ih hrs p'' m' r' h2 htok)

theorem reSearchNum_none : ∀ {l : List Char}, reSearchNum l = none →
    ∀ p m r, l = p ++ m ++ r → isNumTok m = false := by
  intro l
  induction l with
  | nil =>
      intro _ p m r hsplit
      obtain ⟨hpm, hr⟩ := List.append_eq_nil.mp hsplit.symm
      obtain ⟨hp, hm⟩ := List.append_eq_nil.mp hpm
      subst hm
      decide
  | cons c t ih =>
      intro h p m r hsplit
      unfold reSearchNum at h
      cases hmh : matchHere (c :: t) with
      | some y => rw [hmh] at h; exact absurd h (by simp)
      | none =>
          rw [hmh] at h
          have hrs : reSearchNum t = none := by
            cases hq : reSearchNum t with
            | none => rfl
            | some y => rw [hq] at h; simp at h
          by_contra htok
          rw [Bool.not_eq_false] at htok
          cases p with
          | nil =>
              apply numTok_matchHere r htok
              rw [List.nil_append] at hsplit
              rw [hsplit] at hmh
              exact hmh
          | cons c' p'' =>
              rw [List.cons_append] at hsplit
              injection hsplit with h1 h2
              exact absurd htok (by simp [ih hrs p'' m r h2])

/-- C4 — For every textual input to the numeric coercer, after trimming and
normalizing decimal commas to decimal points, the first (leftmost) contiguous
token matching `-?\d+(\.\d+)?` anywhere in the string is extracted and parsed
as the result, and the correction counter increments exactly when that token
differs from the whole (trimmed, comma-normalized) string; when no numeric
token exists anywhere in the string the result is null, not an error. -/
theorem num_text_extract :
    ∀ s : List Char, (pyStrip s).isEmpty = false →
      (∀ p m r, reSearchNum ((pyStrip s).map commaDot) = some (p, m, r) →
        (pyStrip s).map commaDot = p ++ m ++ r ∧ isNumTok m = true ∧
        (∀ p' m' r', (pyStrip s).map commaDot = p' ++ m' ++ r' →
          isNumTok m' = true → p.length ≤ p'.length) ∧
        parse_num (.str s) =
          (some (.fin (numTokVal m)), decide ((pyStrip s).map commaDot ≠ m))) ∧
      (reSearchNum ((pyStrip s).map commaDot) = none →
        (∀ p m r, (pyStrip s).map commaDot = p ++ m ++ r → isNumTok m = false) ∧
        parse_num (.str s) = (none, false)) := by
  intro s hne
  constructor
  · intro p m r hsearch
    obtain ⟨happ, htok⟩ := reSearchNum_sound hsearch
    refine ⟨happ, htok, fun p' m' r' hs ht => reSearchNum_first hsearch p' m' r' hs ht, ?_⟩
    show (if (pyStrip s).isEmpty then _ else _) = _
    rw [hne]
    simp only [Bool.false_eq_true, if_false, hsearch]
  · intro hsearch
    refine ⟨fun p m r hs => reSearchNum_none hsearch p m r hs, ?_⟩
    show (if (pyStrip s).isEmpty then _ else _) = _
    rw [hne]
    simp only [Bool.false_eq_true, if_false, hsearch]

end Sicar

namespace Sicar

/-- C4 witness — the theorem instantiated at the spec's example `"12.5 kg"`,
whose token `12.5` is extracted with the trailing text discarded. -/
theorem num_text_extract_w :
    parse_num (.str "12.5 kg".data) =
      (some (.fin (numTokVal "12.5".data)),
       decide ((pyStrip "12.5 kg".data).map commaDot ≠ "12.5".data)) :=
  ((num_text_extract "12.5 kg".data (by decide)).1 [] "12.5".data " kg".data
    (by decide)).2.2.2

end Sicar

namespace Sicar

theorem lookup_pair_mem {α β : Type} [BEq α] [LawfulBEq α] {l : List (α × β)}
    {k : α} {v : β} (h : l.lookup k = some v) : (k, v) ∈ l := by
  obtain ⟨l₁, l₂, rfl, -⟩ := List.lookup_eq_some_iff.mp h
  exact List.mem_append_right _ (List.mem_cons_self _ _)

theorem casePairs_facts : ∀ p ∈ casePairs,
    isDig p.1 = false ∧ isDig p.2 = false ∧ isSpc p.1 = false ∧ isSpc p.2 = false ∧
    p.1 ≠ '.' ∧ p.2 ≠ '.' ∧ p.1 ≠ ',' ∧ p.2 ≠ ',' ∧
    casePairs.lookup p.2 = none := by decide

theorem charUpper_inv (c : Char) :
    isDig (charUpper c) = isDig c ∧ isSpc (charUpper c) = isSpc c ∧
    ((charUpper c = '.') ↔ (c = '.')) ∧ ((charUpper c = ',') ↔ (c = ',')) ∧
    charUpper (charUpper c) = charUpper c := by
  unfold charUpper
  cases hl : casePairs.lookup c with
  | none => simp [hl]
  | some u =>
      have hmem := lookup_pair_mem hl
      obtain ⟨hd1, hd2, hs1, hs2, hdot1, hdot2, hcom1, hcom2, hlk⟩ :=
        casePairs_facts _ hmem
      simp only [Option.getD_some]
      refine ⟨by rw [hd2, hd1], by rw [hs2, hs1],
        ⟨fun h => absurd h hdot2, fun h => absurd h hdot1⟩,
        ⟨fun h => absurd h hcom2, fun h => absurd h hcom1⟩, ?_⟩
      rw [hlk]
      rfl

theorem isSpc_comp : (isSpc ∘ charUpper) = isSpc :=
  funext fun c => (charUpper_inv c).2.1

theorem isDig_comp : (isDig ∘ charUpper) = isDig :=
  funext fun c => (charUpper_inv c).1

theorem pyUpper_idem (l : List Char) : pyUpper (pyUpper l) = pyUpper l := by
  unfold pyUpper
  rw [List.map_map]
  exact List.map_congr_left (fun a _ => (charUpper_inv a).2.2.2.2)

theorem pyStrip_map_upper (l : List Char) :
    pyStrip (pyUpper l) = pyUpper (pyStrip l) := by
  unfold pyStrip pyUpper
  rw [List.dropWhile_map, isSpc_comp, ← List.map_reverse, List.dropWhile_map,
    isSpc_comp, ← List.map_reverse]

theorem dropWhile_dropWhile {α : Type} (p : α → Bool) (l : List α) :
    (l.dropWhile p).dropWhile p = l.dropWhile p := by
  induction l with
  | nil => rfl
  | cons c t ih =>
      cases hp : p c with
      | true => rw [List.dropWhile_cons_of_pos hp, ih]
      | false =>
          rw [List.dropWhile_cons_of_neg (by simp [hp]),
            List.dropWhile_cons_of_neg (by simp [hp])]

theorem strip_rev_clean {α : Type} {p : α → Bool} {X : List α}
    (hX : X.dropWhile p = X) :
    ((X.reverse.dropWhile p).reverse).dropWhile p = (X.reverse.dropWhile p).reverse := by
  have hsuf : X.reverse.dropWhile p <:+ X.reverse := List.dropWhile_suffix p
  have h1 : (X.reverse.dropWhile p).reverse <+: X.reverse.reverse :=
    List.reverse_prefix.mpr hsuf
  rw [List.reverse_reverse] at h1
  obtain ⟨z, hz⟩ := h1
  cases hYc : (X.reverse.dropWhile p).reverse with
  | nil => rfl
  | cons c t =>
      have hXeq : X = c :: (t ++ z) := by rw [← hz, hYc]; simp
      have hpc : p c = false := by
        by_contra hpc'
        rw [Bool.not_eq_false] at hpc'
        have hdw : X.dropWhile p = (t ++ z).dropWhile p := by
          rw [hXeq, List.dropWhile_cons_of_pos hpc']
        have hlen := congrArg List.length (hX.symm.trans hdw)
        have hle : ((t ++ z).dropWhile p).length ≤ (t ++ z).length :=
          (List.dropWhile_sublist p).length_le
        rw [hXeq] at hlen
        simp only [List.length_cons, List.length_append] at hlen hle
        omega
      rw [List.dropWhile_cons_of_neg (by simp [hpc])]

theorem pyStrip_idem (l : List Char) : pyStrip (pyStrip l) = pyStrip l := by
  unfold pyStrip
  have h2 := strip_rev_clean (dropWhile_dropWhile isSpc l)
  rw [h2, List.reverse_reverse, dropWhile_dropWhile]

theorem isEmpty_map {α β : Type} (f : α → β) (l : List α) :
    (l.map f).isEmpty = l.isEmpty := by
  cases l <;> rfl

theorem numFull_upper (l : List Char) : numFull (pyUpper l) = numFull l := by
  unfold numFull pyUpper
  rw [List.takeWhile_map, List.dropWhile_map, isDig_comp]
  cases hd : l.dropWhile isDig with
  | nil => simp [isEmpty_map]
  | cons c r2 =>
      simp only [List.map_cons]
      rw [List.takeWhile_map, List.dropWhile_map, isDig_comp]
      simp [isEmpty_map, (charUpper_inv c).2.2.1, (charUpper_inv c).2.2.2.1]

theorem unit_map_canon : ∀ p ∈ UNIT_NORMALIZATION,
    normalize_unit_name (.str p.2) = (some p.2, false) := by decide

theorem cellStr_str (s : List Char) : cellStr (.str s) = s := rfl

theorem normalize_unit_not_na {x : Cell} (h : x ≠ .na) :
    normalize_unit_name x =
      (if (pyStrip (cellStr x)).isEmpty then (none, false)
       else if numFull (pyStrip (cellStr x)) then (none, true)
       else
         (some ((UNIT_NORMALIZATION.lookup
             (stripDotSpace (pyUpper (pyStrip (cellStr x))))).getD
            (pyUpper (pyStrip (cellStr x)))),
          decide ((UNIT_NORMALIZATION.lookup
             (stripDotSpace (pyUpper (pyStrip (cellStr x))))).getD
            (pyUpper (pyStrip (cellStr x))) ≠ pyStrip (cellStr x)))) := by
  cases x <;> first | exact absurd rfl h | rfl

/-- C7 — Unit-name canonicalization is idempotent: feeding the coercer's own
output back in returns it unchanged with no correction flagged (a null output
stays null); and concretely `"Pzas."` canonicalizes to `"PIEZA"` with
correction flagged while `"PIEZA"` returns unchanged without correction. -/
theorem unit_canon_idem :
    (∀ x : Cell,
      normalize_unit_name (cellOfUnit (normalize_unit_name x).1) =
        ((normalize_unit_name x).1, false)) ∧
    normalize_unit_name (.str "Pzas.".data) = (some "PIEZA".data, true) ∧
    normalize_unit_name (.str "PIEZA".data) = (some "PIEZA".data, false) := by
  refine ⟨fun x => ?_, by decide, by decide⟩
  cases hv : (normalize_unit_name x).1 with
  | none => rfl
  | some canon =>
      have hxna : x ≠ .na := by
        rintro rfl
        exact Option.noConfusion hv
      rw [normalize_unit_not_na hxna] at hv
      by_cases h1 : (pyStrip (cellStr x)).isEmpty
      · rw [if_pos h1] at hv
        exact absurd hv (by simp)
      · rw [if_neg h1] at hv
        by_cases h2 : numFull (pyStrip (cellStr x)) = true
        · rw [if_pos h2] at hv
          exact absurd hv (by simp)
        · rw [if_neg h2] at hv
          have hcanon :
              (UNIT_NORMALIZATION.lookup
                (stripDotSpace (pyUpper (pyStrip (cellStr x))))).getD
                (pyUpper (pyStrip (cellStr x))) = canon := by
            exact Option.some.inj hv
          show normalize_unit_name (cellOfUnit (some canon)) = (some canon, false)
          cases hlk : UNIT_NORMALIZATION.lookup
              (stripDotSpace (pyUpper (pyStrip (cellStr x)))) with
          | some u =>
              have hcu : canon = u := by rw [← hcanon, hlk]; rfl
              subst hcu
              exact unit_map_canon _ (lookup_pair_mem hlk)
          | none =>
              have hcu : canon = pyUpper (pyStrip (cellStr x)) := by
                rw [← hcanon, hlk]
                rfl
              subst hcu
              show normalize_unit_name (.str (pyUpper (pyStrip (cellStr x)))) = _
              have hss : pyStrip (pyStrip (cellStr x)) = pyStrip (cellStr x) :=
                pyStrip_idem _
              have hs2 : pyStrip (pyUpper (pyStrip (cellStr x))) =
                  pyUpper (pyStrip (cellStr x)) := by
                rw [pyStrip_map_upper, hss]
              have hne2 : (pyUpper (pyStrip (cellStr x))).isEmpty = false := by
                cases he : pyStrip (cellStr x) with
                | nil => rw [he] at h1; exact absurd rfl h1
                | cons a b => rfl
              rw [normalize_unit_not_na (by simp)]
              simp only [cellStr_str, hs2, pyUpper_idem, hlk]
              rw [if_neg (by simp [hne2]), if_neg (by rw [numFull_upper]; exact h2)]
              simp

end Sicar

namespace Sicar

theorem runUpload_prep_none {df : Frame} {db : DbState} (failAt : Option ℕ)
    (hp : uploadPrep df db = none) :
    runUpload df db failAt =
      (if df.rows.isEmpty ∨ df.cols.isEmpty then ⟨db, [], .emptyInput⟩
       else ⟨db, [], .noKey⟩) := by
  unfold runUpload
  rw [hp]

theorem runUpload_prep_some {df : Frame} {db : DbState} (failAt : Option ℕ)
    {key : List Char} {clean2 : Frame} {rep : Report}
    (hp : uploadPrep df db = some (key, clean2, rep)) :
    runUpload df db failAt =
      (if (updateColsOf clean2).isEmpty then ⟨db, [.selectLookups], .noEditable⟩
       else if failsWithin failAt (paramsOf clean2 key).length then
         ⟨db, [.selectLookups, .bulkUpdate], .writeError⟩
       else
         ⟨writeDb clean2 key db, [.selectLookups, .bulkUpdate],
          .committed (paramsOf clean2 key).length rep⟩) := by
  unfold runUpload
  rw [hp]

/-- C1 — An upload is atomic.  Either the final database equals the initial
one and nothing was committed (every abort, and any database error injected
while the bulk write executes — the surrounding handler rolls the whole
transaction back), or the upload committed, in which case the final database
is exactly the full batch applied (`writeDb`); no other terminal state, in
particular no partially-applied one, is reachable for any failure point. -/
theorem upload_atomic :
    ∀ (df : Frame) (db : DbState) (failAt : Option ℕ),
      (((runUpload df db failAt).db = db ∧
        ∀ n rep, (runUpload df db failAt).outcome ≠ .committed n rep) ∨
      (∃ key clean2 rep, uploadPrep df db = some (key, clean2, rep) ∧
        runUpload df db failAt =
          ⟨writeDb clean2 key db, [.selectLookups, .bulkUpdate],
           .committed (paramsOf clean2 key).length rep⟩)) ∧
      (∀ key clean2 rep,
        uploadPrep df db = some (key, clean2, rep) →
        (updateColsOf clean2).isEmpty = false →
        failsWithin failAt (paramsOf clean2 key).length = true →
        runUpload df db failAt = ⟨db, [.selectLookups, .bulkUpdate], .writeError⟩) := by
  intro df db failAt
  cases hp : uploadPrep df db with
  | none =>
      refine ⟨Or.inl ?_, fun key c r hprep => absurd hprep (by simp)⟩
      rw [runUpload_prep_none failAt hp]
      split <;> exact ⟨rfl, fun n rep h => Outcome.noConfusion h⟩
  | some x =>
      obtain ⟨key, clean2, rep⟩ := x
      rw [runUpload_prep_some failAt hp]
      constructor
      · by_cases hu : (updateColsOf clean2).isEmpty
        · rw [if_pos hu]
          exact Or.inl ⟨rfl, fun n rep h => Outcome.noConfusion h⟩
        · rw [if_neg hu]
          by_cases hk : failsWithin failAt (paramsOf clean2 key).length = true
          · rw [if_pos hk]
            exact Or.inl ⟨rfl, fun n rep h => Outcome.noConfusion h⟩
          · rw [if_neg hk]
            exact Or.inr ⟨key, clean2, rep, rfl, rfl⟩
      · intro key' c' r' hprep hu hk
        injection hprep with hprep
        injection hprep with e1 hprep
        injection hprep with e2 e3
        subst e1
        subst e2
        subst e3
        rw [if_neg (by simp [hu]), if_pos hk]

/-- C1 witness — with a database error injected at the first row of a
two-column upload that reaches the write, the database is unchanged. -/
theorem upload_atomic_w : (runUpload wFrame1 wDb (some 0)).db = wDb := by
  have hout : (runUpload wFrame1 wDb (some 0)).outcome = .writeError := by decide
  rcases (upload_atomic wFrame1 wDb (some 0)).1 with h | ⟨key, c, r, hp, heq⟩
  · exact h.1
  · rw [heq] at hout
    exact absurd hout (by simp)

end Sicar

namespace Sicar

/-- C3 counterexample — an upload whose spreadsheet has only the key column
reports "no editable fields", yet its statement trace is not empty: the unit
catalogue SELECT (SQL #1) was already issued before the zero-editable-fields
check, contradicting the claim that the operation aborts before any database
access. -/
theorem no_editable_reads_ce :
    (runUpload keyOnlyFrame wDb none).outcome = .noEditable ∧
    (runUpload keyOnlyFrame wDb none).trace = [.selectLookups] ∧
    (runUpload keyOnlyFrame wDb none).trace ≠ [] := by
  refine ⟨by decide, by decide, by decide⟩

/-- C3 (amended) — When, after mapping, zero updatable data columns remain,
the upload aborts before the bulk write: the lookup SELECT has already been
issued, but no write statement is, the database is left unchanged, and the
caller is told "no editable fields" (`Sin columnas de datos`). -/
theorem no_editable_aborts_before_write :
    ∀ (df : Frame) (db : DbState) (failAt : Option ℕ) key clean2 rep,
      uploadPrep df db = some (key, clean2, rep) →
      (updateColsOf clean2).isEmpty = true →
      runUpload df db failAt = ⟨db, [.selectLookups], .noEditable⟩ := by
  intro df db failAt key clean2 rep hp hu
  rw [runUpload_prep_some failAt hp, if_pos hu]

/-- C3 witness — the amended theorem instantiated at the key-only upload. -/
theorem no_editable_aborts_before_write_w :
    runUpload keyOnlyFrame wDb none = ⟨wDb, [.selectLookups], .noEditable⟩ :=
  no_editable_aborts_before_write keyOnlyFrame wDb none "id".data
    ⟨["id".data], [[.str "1".data]]⟩ ⟨0, 0, 0, 0⟩ (by decide) (by decide)

end Sicar

namespace Sicar

theorem indexOf?_spec {cols : List (List Char)} {c : List Char} {i : ℕ}
    (h : cols.indexOf? c = some i) : i < cols.length ∧ cols.getD i [] = c := by
  rw [List.indexOf?, List.findIdx?_eq_some_iff_getElem] at h
  obtain ⟨hlt, hbeq, -⟩ := h
  refine ⟨hlt, ?_⟩
  rw [List.getD_eq_getElem?_getD, List.getElem?_eq_getElem hlt]
  simpa using hbeq

theorem getD_set_self {r : List Cell} {i : ℕ} {v d : Cell} (h : i < r.length) :
    (r.set i v).getD i d = v := by
  rw [List.getD_eq_getElem?_getD, List.getElem?_set_self (by simpa using h)]
  rfl

theorem foldl_mapColAt (L : List (List Char × (List Char × FieldTyp))) (f : Frame) :
    (L.foldl (fun g e => mapColAt g e.1 (coerceCell e.2.2)) f).cols = f.cols ∧
    (L.foldl (fun g e => mapColAt g e.1 (coerceCell e.2.2)) f).rows =
      f.rows.map
        (fun r => L.foldl (fun r e => mapCellAt f.cols e.1 (coerceCell e.2.2) r) r) := by
  induction L generalizing f with
  | nil => exact ⟨rfl, by simp⟩
  | cons e L ih =>
      obtain ⟨hc, hr⟩ := ih (mapColAt f e.1 (coerceCell e.2.2))
      refine ⟨hc, ?_⟩
      rw [List.foldl_cons, hr]
      show (f.rows.map (mapCellAt f.cols e.1 (coerceCell e.2.2))).map _ = _
      rw [List.map_map]
      rfl

theorem cleanAutocorrect_spec (df : Frame) (key : List Char) :
    (cleanAutocorrect df key).1.cols = keptCols df.cols ∧
    (cleanAutocorrect df key).1.rows =
      ((keyFilteredRows df key).filter
        (fun r => !isEchoRow (keptCols df.cols) key r)).map
        (coerceRow (keptCols df.cols)) ∧
    (cleanAutocorrect df key).2.dropped_rows =
      ((keyFilteredRows df key).filter (isEchoRow (keptCols df.cols) key)).length := by
  unfold cleanAutocorrect
  have h5 := foldl_mapColAt ALLOWED_MAP
    ⟨keptCols df.cols,
     ((df.rows.map (keptRow df.cols)).map (keyConvRow (keptCols df.cols) key)).filter
       (fun r => decide (getCell (keptCols df.cols) r key ≠ .str []))
       |>.filter (fun r => !isEchoRow (keptCols df.cols) key r)⟩
  exact ⟨h5.1, h5.2, rfl⟩

theorem clean_keep_mem {df : Frame} {key : List Char} {r : List Cell}
    (hr : r ∈ df.rows)
    (hkey : getCell (keptCols df.cols)
      (keyConvRow (keptCols df.cols) key (keptRow df.cols r)) key ≠ .str [])
    (hecho : isEchoRow (keptCols df.cols) key
      (keyConvRow (keptCols df.cols) key (keptRow df.cols r)) = false) :
    coerceRow (keptCols df.cols) (keyConvRow (keptCols df.cols) key (keptRow df.cols r)) ∈
      (cleanAutocorrect df key).1.rows := by
  rw [(cleanAutocorrect_spec df key).2.1]
  apply List.mem_map_of_mem
  rw [List.mem_filter]
  refine ⟨?_, by simp [hecho]⟩
  unfold keyFilteredRows
  rw [List.mem_filter]
  exact ⟨List.mem_map_of_mem _ (List.mem_map_of_mem _ hr), decide_eq_true hkey⟩

end Sicar

namespace Sicar

theorem mem_keptCols {cols : List (List Char)} {c : List Char}
    (h : c ∈ keptCols cols) : c ∈ keepCols cols := by
  unfold keptCols at h
  rw [List.mem_map] at h
  obtain ⟨i, hi, hgi⟩ := h
  unfold keepIdxs at hi
  rw [List.mem_filterMap] at hi
  obtain ⟨c', hc', hidx⟩ := hi
  rw [(indexOf?_spec hidx).2] at hgi
  rw [← hgi]
  exact hc'

/-- C6 counterexample — a row whose key is blank while its `descripcion` cell
echoes its own column name satisfies the claim's antecedent, and it is indeed
dropped (the cleaned batch is empty), yet `rowsDropped` stays 0: the blank-key
filter removed it before the echo mask, so it is not counted. -/
theorem echo_row_drop_ce :
    pyLower (pyStrip (cellStr (getCell blankKeyEchoFrame.cols
      (blankKeyEchoFrame.rows.getD 0 []) "descripcion".data))) = "descripcion".data ∧
    (cleanAutocorrect blankKeyEchoFrame "id".data).1.rows = [] ∧
    (cleanAutocorrect blankKeyEchoFrame "id".data).2.dropped_rows = 0 :=
  ⟨by decide, by decide, by decide⟩

/-- C6 (amended) — Among the rows that survive the blank-key filter, a row is
dropped and counted in `rowsDropped` exactly when some cell in a non-key kept
column, as trimmed lower-cased text, equals its own column's name; rows whose
trimmed key is blank are dropped by the earlier filter without being counted.
A surviving row whose cells match only *other* columns' names is kept. -/
theorem echo_row_drop :
    (∀ (df : Frame) (key : List Char),
      (cleanAutocorrect df key).2.dropped_rows =
        ((keyFilteredRows df key).filter (isEchoRow (keptCols df.cols) key)).length) ∧
    (∀ (kc : List (List Char)) (key : List Char) (r : List Cell),
      isEchoRow kc key r = true ↔
        ∃ c ∈ kc.filter (fun c => c ≠ key),
          pyLower (pyStrip (cellStr (getCell kc r c))) = c) ∧
    (∀ (df : Frame) (key : List Char) (r : List Cell),
      r ∈ df.rows →
      getCell (keptCols df.cols) (keyConvRow (keptCols df.cols) key (keptRow df.cols r))
        key ≠ .str [] →
      isEchoRow (keptCols df.cols) key
        (keyConvRow (keptCols df.cols) key (keptRow df.cols r)) = false →
      coerceRow (keptCols df.cols) (keyConvRow (keptCols df.cols) key (keptRow df.cols r)) ∈
        (cleanAutocorrect df key).1.rows) := by
  refine ⟨fun df key => (cleanAutocorrect_spec df key).2.2, fun kc key r => ?_,
    fun df key r h1 h2 h3 => clean_keep_mem h1 h2 h3⟩
  unfold isEchoRow
  rw [List.any_eq_true]
  constructor
  · rintro ⟨c, hc, hb⟩
    exact ⟨c, hc, by simpa using hb⟩
  · rintro ⟨c, hc, hb⟩
    exact ⟨c, hc, by simpa using hb⟩

/-- C6 witness — the row of `crossEchoFrame`, whose `descripcion` cell equals
the *other* column name `existencia`, survives cleaning. -/
theorem echo_row_drop_w :
    coerceRow (keptCols crossEchoFrame.cols)
      (keyConvRow (keptCols crossEchoFrame.cols) "id".data
        (keptRow crossEchoFrame.cols (crossEchoFrame.rows.getD 0 []))) ∈
      (cleanAutocorrect crossEchoFrame "id".data).1.rows :=
  echo_row_drop.2.2 crossEchoFrame "id".data _ (by decide) (by decide) (by decide)

/-- C9 — The echo-row test examines only registry-retained columns (the key
columns `id`/`clave` and the recognized data columns): every column the mask
samples is such a column, and a row whose cell under an *unrecognized* column
equals that column's own name — while every kept non-key cell differs from its
column's name — is kept, because unrecognized columns are removed before the
echo test runs. -/
theorem echo_unmapped_ignored :
    (∀ (cols : List (List Char)) (key c : List Char),
      c ∈ (keptCols cols).filter (fun c => c ≠ key) →
        c = "id".data ∨ c = "clave".data ∨ (ALLOWED_MAP.lookup c).isSome = true) ∧
    (∀ (df : Frame) (key : List Char) (r : List Cell) (c0 : List Char),
      ALLOWED_MAP.lookup c0 = none → c0 ≠ "id".data → c0 ≠ "clave".data →
      pyLower (pyStrip (cellStr (getCell df.cols r c0))) = c0 →
      r ∈ df.rows →
      getCell (keptCols df.cols) (keyConvRow (keptCols df.cols) key (keptRow df.cols r))
        key ≠ .str [] →
      isEchoRow (keptCols df.cols) key
        (keyConvRow (keptCols df.cols) key (keptRow df.cols r)) = false →
      c0 ∉ keptCols df.cols ∧
      coerceRow (keptCols df.cols) (keyConvRow (keptCols df.cols) key (keptRow df.cols r)) ∈
        (cleanAutocorrect df key).1.rows) := by
  constructor
  · intro cols key c hc
    have hc2 := (List.mem_filter.mp (mem_keptCols (List.mem_filter.mp hc).1)).2
    exact of_decide_eq_true hc2
  · intro df key r c0 hlk hid hclave hecho0 hr hkey hechofalse
    constructor
    · intro hmem
      have hc2 := (List.mem_filter.mp (mem_keptCols hmem)).2
      rcases of_decide_eq_true hc2 with h | h | h
      · exact hid h
      · exact hclave h
      · rw [hlk] at h
        exact absurd h (by decide)
    · exact clean_keep_mem hr hkey hechofalse

/-- C9 witness — the row of `unmappedEchoFrame`, whose cell under the
unrecognized column `foo` equals `foo` itself, survives cleaning. -/
theorem echo_unmapped_ignored_w :
    "foo".data ∉ keptCols unmappedEchoFrame.cols ∧
    coerceRow (keptCols unmappedEchoFrame.cols)
      (keyConvRow (keptCols unmappedEchoFrame.cols) "id".data
        (keptRow unmappedEchoFrame.cols (unmappedEchoFrame.rows.getD 0 []))) ∈
      (cleanAutocorrect unmappedEchoFrame "id".data).1.rows :=
  echo_unmapped_ignored.2 unmappedEchoFrame "id".data _ "foo".data (by decide) (by decide)
    (by decide) (by decide) (by decide) (by decide) (by decide)

/-- C10 — A missing key cell is stringified by `astype(str)` to the non-empty
literal `"nan"`, so the row passes the blank-key drop filter; such a row (when
it is not an echo row) is kept in the batch. -/
theorem nan_key_kept :
    (∀ (kc : List (List Char)) (key : List Char) (r : List Cell) (i : ℕ),
      kc.indexOf? key = some i → i < r.length → r.getD i .na = .na →
      getCell kc (keyConvRow kc key r) key = .str "nan".data ∧
      ("nan".data : List Char) ≠ []) ∧
    (∀ (df : Frame) (key : List Char) (r : List Cell) (i : ℕ),
      r ∈ df.rows →
      (keptCols df.cols).indexOf? key = some i →
      (keptRow df.cols r).getD i .na = .na →
      isEchoRow (keptCols df.cols) key
        (keyConvRow (keptCols df.cols) key (keptRow df.cols r)) = false →
      coerceRow (keptCols df.cols) (keyConvRow (keptCols df.cols) key (keptRow df.cols r)) ∈
        (cleanAutocorrect df key).1.rows) := by
  have part1 : ∀ (kc : List (List Char)) (key : List Char) (r : List Cell) (i : ℕ),
      kc.indexOf? key = some i → i < r.length → r.getD i .na = .na →
      getCell kc (keyConvRow kc key r) key = .str "nan".data := by
    intro kc key r i hidx hlen hna
    unfold getCell keyConvRow mapCellAt
    rw [hidx]
    show (r.set i (Cell.str (pyStrip (cellStr (r.getD i Cell.na))))).getD i Cell.na =
      Cell.str "nan".data
    rw [getD_set_self hlen, hna]
    rfl
  refine ⟨fun kc key r i h1 h2 h3 => ⟨part1 kc key r i h1 h2 h3, by decide⟩, ?_⟩
  intro df key r i hr hidx hna hecho
  have hlen : i < (keptRow df.cols r).length := by
    have h1 := (indexOf?_spec hidx).1
    unfold keptCols at h1
    unfold keptRow
    simpa using h1
  apply clean_keep_mem hr ?_ hecho
  rw [part1 _ _ _ _ hidx hlen hna]
  simp

/-- C10 witness — the row of `nanKeyFrame`, whose key cell is missing, is kept
with key text `"nan"`. -/
theorem nan_key_kept_w :
    coerceRow (keptCols nanKeyFrame.cols)
      (keyConvRow (keptCols nanKeyFrame.cols) "id".data
        (keptRow nanKeyFrame.cols (nanKeyFrame.rows.getD 0 []))) ∈
      (cleanAutocorrect nanKeyFrame "id".data).1.rows :=
  nan_key_kept.2 nanKeyFrame "id".data _ 0 (by decide) (by decide) (by decide) (by decide)

end Sicar

namespace Sicar

/-- C2 counterexample — with two records in one batch addressing the same
product (`art_id` 1, `existencia` initially 7), the first record's coerced
stock value is NULL and its WHERE clause matches the row, yet after the
committed bulk write the destination holds the second record's 5, not the
original 7: a later record in the same batch can overwrite what a
null-valued record preserved. -/
theorem preserve_null_batch_ce :
    uploadPrep dupKeyFrame c2Db = some ("id".data, c2Clean, ⟨0, 0, 0, 0⟩) ∧
    paramGet ((paramsOf c2Clean "id".data).getD 0 []) "existencia".data = none ∧
    whereMatch "art_id".data ((paramsOf c2Clean "id".data).getD 0 [] |>.lookup "id".data
        |>.getD none) (c2Db.articulo.getD 0 ⟨0, [], []⟩) = true ∧
    List.lookup "existencia".data (c2Db.articulo.getD 0 ⟨0, [], []⟩).fields =
      some (some (.n 7)) ∧
    (runUpload dupKeyFrame c2Db none).db.articulo =
      [⟨1, "A".data, [("existencia".data, some (.n 5))]⟩] ∧
    (some (SqlVal.n 5) : Option SqlVal) ≠ some (SqlVal.n 7) := by
  refine ⟨by with_unfolding_all decide, by with_unfolding_all decide,
    by with_unfolding_all decide, by with_unfolding_all decide,
    by with_unfolding_all decide, by with_unfolding_all decide⟩

theorem execAll_map (updates : List (List Char × List Char)) (wc key : List Char) :
    ∀ (params : List ParamRow) (tbl : List Articulo),
      execAll updates wc key params tbl = tbl.map (rowExec updates wc key params) := by
  intro params
  induction params with
  | nil =>
      intro tbl
      show tbl = tbl.map (fun a => a)
      rw [List.map_id']
  | cons p ps ih =>
      intro tbl
      show execAll updates wc key ps (execStmt updates wc key p tbl) = _
      rw [ih (execStmt updates wc key p tbl)]
      unfold execStmt
      rw [List.map_map]
      rfl

theorem applyRow_lookup_null {updates : List (List Char × List Char)} {p : ParamRow}
    {dbcol : List Char} {u : List Char × List Char}
    (hf : updates.find? (fun x => x.1 == dbcol) = some u)
    (hnull : paramGet p u.2 = none) (a : Articulo) :
    List.lookup dbcol (applyRow updates p a).fields = List.lookup dbcol a.fields := by
  show List.lookup dbcol (a.fields.map _) = _
  generalize a.fields = l
  induction l with
  | nil => rfl
  | cons kv t ih =>
      obtain ⟨k, v⟩ := kv
      simp only [List.map_cons]
      by_cases heq : dbcol = k
      · subst heq
        rw [hf]
        show List.lookup dbcol
          ((dbcol, match paramGet p u.2 with | some w => some w | none => v) ::
            List.map _ t) = List.lookup dbcol ((dbcol, v) :: t)
        rw [hnull]
        rw [List.lookup_cons, List.lookup_cons]
        have hb : (dbcol == dbcol) = true := by simp
        rw [hb]
      · have hb : (dbcol == k) = false := by simpa using heq
        rw [List.lookup_cons, List.lookup_cons, hb]
        exact ih

theorem rowExec_lookup_null {updates : List (List Char × List Char)} {wc key : List Char}
    {dbcol : List Char} {u : List Char × List Char}
    (hf : updates.find? (fun x => x.1 == dbcol) = some u) :
    ∀ (params : List ParamRow), (∀ p ∈ params, paramGet p u.2 = none) →
    ∀ (a : Articulo),
      List.lookup dbcol (rowExec updates wc key params a).fields =
        List.lookup dbcol a.fields := by
  intro params
  induction params with
  | nil => intro _ a; rfl
  | cons p ps ih =>
      intro hnull a
      show List.lookup dbcol (rowExec updates wc key ps
        (if whereMatch wc (paramGet p key) a then applyRow updates p a else a)).fields = _
      rw [ih (fun q hq => hnull q (List.mem_cons_of_mem p hq))]
      by_cases hw : whereMatch wc (paramGet p key) a = true
      · rw [if_pos hw]
        exact applyRow_lookup_null hf (hnull p (List.mem_cons_self p ps)) a
      · rw [if_neg hw]

/-- C2 (amended) — Preserve-on-null holds per statement, hence for a whole
batch all of whose records bind the field's parameter to NULL: the
`COALESCE(%(c)s, dbcol)` assignment leaves the destination column untouched
whenever the bound parameter is NULL, so after the bulk write every row still
holds its prior value for that field.  (A *different* record of the same
batch with a non-null value for the field can still change it afterwards —
see the counterexample.) -/
theorem coalesce_preserve :
    ∀ (updates : List (List Char × List Char)) (wc key : List Char)
      (params : List ParamRow) (tbl : List Articulo)
      (dbcol : List Char) (u : List Char × List Char),
      updates.find? (fun x => x.1 == dbcol) = some u →
      (∀ p ∈ params, paramGet p u.2 = none) →
      execAll updates wc key params tbl = tbl.map (rowExec updates wc key params) ∧
      ∀ a ∈ tbl,
        List.lookup dbcol (rowExec updates wc key params a).fields =
          List.lookup dbcol a.fields := by
  intro updates wc key params tbl dbcol u hf hnull
  exact ⟨execAll_map updates wc key params tbl,
    fun a _ => rowExec_lookup_null hf params hnull a⟩

/-- C2 witness — a one-record batch whose stock parameter is NULL leaves the
destination stock at 7. -/
theorem coalesce_preserve_w :
    List.lookup "existencia".data
      (rowExec [("existencia".data, "existencia".data)] "art_id".data "id".data
        [[("existencia".data, none), ("id".data, some (.s "1".data))]]
        ⟨1, "A".data, [("existencia".data, some (.n 7))]⟩).fields =
      List.lookup "existencia".data
        (⟨1, "A".data, [("existencia".data, some (.n 7))]⟩ : Articulo).fields :=
  (coalesce_preserve [("existencia".data, "existencia".data)] "art_id".data "id".data
    [[("existencia".data, none), ("id".data, some (.s "1".data))]]
    [⟨1, "A".data, [("existencia".data, some (.n 7))]⟩] "existencia".data
    ("existencia".data, "existencia".data) (by decide)
    (by intro p hp; rw [List.mem_singleton] at hp; subst hp; rfl)).2
    ⟨1, "A".data, [("existencia".data, some (.n 7))]⟩ (List.mem_singleton_self _)

end Sicar
